import Mathlib

/-!
galaxy: ENI metadata discovery and the cloud provider client

A shallow embedding of

* `pkg/tke/eni/utils.go`: `getENIIndex`, `getENIMetaMap`, `IsNotExistsError`,
  `IsFileExistsError`;
* `pkg/ipam/cloudprovider/cloudprovider.go`: `NewGRPCCloudProvider`, `connect`,
  `AssignIP`, `UnAssignIP`.

Go strings are modelled by Lean strings, Go `error` values by `Option` of an error type
(`none` is `nil`), Go maps by association lists with unique keys.  Functions of the Go
standard library that the code calls (`strings.TrimLeft`, `strconv.ParseInt`, `sync.Once`,
`fmt.Errorf`) are modelled after their library sources; external capabilities (the metadata
client, the remote service) are records of functions.
-/

namespace eni

/-! ## Go values used by package `eni` -/

/-- The two sentinel causes carried by a `*strconv.NumError`. -/
inductive NumErrKind where
  | ErrSyntax
  | ErrRange
  deriving DecidableEq, Repr

/-- A non-nil Go `error` value, by dynamic type: a `syscall.Errno` (a machine word), the
`*strconv.NumError` built by `strconv`, or a value of any other dynamic type, identified by
its text. -/
inductive GoError where
  | errno (code : Nat)
  | numError (fn : String) (num : String) (kind : NumErrKind)
  | other (text : String)
  deriving DecidableEq, Repr

/-- Go `error`: `none` is the nil error. -/
abbrev error := Option GoError

/-- Linux value of `syscall.ESRCH` ("no such process"). -/
def ESRCH : Nat := 0x3

/-- Linux value of `syscall.EEXIST` ("file exists"). -/
def EEXIST : Nat := 0x11

/-! ## `strings` and `strconv` -/

/-- Go `strings.TrimLeft(s, cutset)`: `s` without all leading characters contained in
`cutset`. The cutset is a set of characters, not a prefix. -/
def TrimLeft (s cutset : String) : String :=
  ⟨s.data.dropWhile (fun c => cutset.data.contains c)⟩

/-- An ASCII instance of `strings.ToLower`, for evaluating examples: `A`..`Z` are shifted to
`a`..`z` and everything else is kept.  It agrees with Go on ASCII strings. -/
def asciiToLower (s : String) : String := ⟨s.data.map Char.toLower⟩

def maxUint64 : Nat := 2 ^ 64 - 1

/-- The digit value `strconv.ParseUint` gives to one byte of the input: `0`..`9`, or a letter
(`lower(c) - 'a' + 10`); `none` is the `default` branch (syntax error). In base 10 the
underscore is never accepted (`base0` is false). -/
def digitVal (c : Char) : Option Nat :=
  if 48 ≤ c.toNat ∧ c.toNat ≤ 57 then some (c.toNat - 48)
  else if 97 ≤ c.toNat ∧ c.toNat ≤ 122 then some (c.toNat - 97 + 10)
  else if 65 ≤ c.toNat ∧ c.toNat ≤ 90 then some (c.toNat + 32 - 97 + 10)
  else none

/-- The loop `for _, c := range []byte(s)` of `strconv.ParseUint`, with accumulator `n`
(a `uint64`, hence the reductions modulo `2 ^ 64`): the value and the cause of the error. -/
def parseUintLoop (base maxVal : Nat) : List Char → Nat → Nat × Option NumErrKind
  | [], n => (n, none)
  | c :: cs, n =>
    match digitVal c with
    | none => (0, some .ErrSyntax)
    | some d =>
      if d ≥ base then (0, some .ErrSyntax)
      else if n ≥ maxUint64 / base + 1 then (maxVal, some .ErrRange)
      else
        let n0 := (n * base) % 2 ^ 64
        let n1 := (n0 + d) % 2 ^ 64
        if n1 < n0 ∨ n1 > maxVal then (maxVal, some .ErrRange)
        else parseUintLoop base maxVal cs n1

/-- Go `strconv.ParseUint(s, base, bitSize)` for `2 ≤ base ≤ 36` and `1 ≤ bitSize ≤ 64`. -/
def ParseUint (s : List Char) (base bitSize : Nat) : Nat × Option NumErrKind :=
  if s = [] then (0, some .ErrSyntax)
  else parseUintLoop base (2 ^ bitSize - 1) s 0

/-- Go `strconv.ParseInt(s, base, bitSize)` for `2 ≤ base ≤ 36` and `1 ≤ bitSize ≤ 64`: the
value and the error. -/
def ParseInt (s : String) (base bitSize : Nat) : Int × error :=
  match s.data with
  | [] => (0, some (.numError "ParseInt" s .ErrSyntax))
  | c :: cs =>
    let neg := decide (c = '-')
    let rest := if c = '+' ∨ c = '-' then cs else c :: cs
    let (un, err) := ParseUint rest base bitSize
    if err ≠ none ∧ err ≠ some .ErrRange then
      (0, some (.numError "ParseInt" s .ErrSyntax))
    else
      let cutoff := 2 ^ (bitSize - 1)
      if ¬ neg ∧ un ≥ cutoff then
        (Int.ofNat (cutoff - 1), some (.numError "ParseInt" s .ErrRange))
      else if neg ∧ un > cutoff then
        (- Int.ofNat cutoff, some (.numError "ParseInt" s .ErrRange))
      else (if neg then - Int.ofNat un else Int.ofNat un, none)

/-! ## `getENIIndex` -/

/-- Modelled from the spec: the constant `devPrefix` is declared outside the two source
files; the spec gives the known device-name prefix as "eth". -/
def devPrefix : String := "eth"

/-- Go `getENIIndex(ifName)`: index and error. -/
def getENIIndex (ifName : String) : Int × error :=
  let numStr := TrimLeft ifName devPrefix
  let (num, err) := ParseInt numStr 10 32
  if err ≠ none then (0, err)
  else (num, none)

/-! ## `getENIMetaMap` -/

/-- Modelled from the spec: the struct `eniMeta` is declared outside the two source files;
these are the fields `getENIMetaMap` assigns, with the types of the values assigned. -/
structure eniMeta where
  Mac : String
  Primary : Bool
  PrimaryIp : String
  Mask : String
  GateWay : String
  LocalIpList : List String
  deriving DecidableEq, Repr

/-- The metadata capability `*metadata.MetaData` (an external library): each lookup either
yields a value or fails with an error. -/
structure MetaData where
  EniMacs : Except GoError (List String)
  Mac : Except GoError String
  EniPrimaryIpv4 : String → Except GoError String
  EniIpv4SubnetMask : String → String → Except GoError String
  EniIpv4GateWay : String → String → Except GoError String
  EniIpv4List : String → Except GoError (List String)

/-- One call of a method of the metadata capability, with its arguments. -/
inductive Lookup where
  | EniMacs
  | Mac
  | EniPrimaryIpv4 (mac : String)
  | EniIpv4SubnetMask (mac ip : String)
  | EniIpv4GateWay (mac ip : String)
  | EniIpv4List (mac : String)
  deriving DecidableEq, Repr

/-- Go `map[string]*eniMeta`: an association list in which every key occurs once. -/
abbrev ENIMap := List (String × eniMeta)

/-- Go `m[k] = v`: the binding of `k` is added or replaced. -/
def ENIMap.set (m : ENIMap) (k : String) (v : eniMeta) : ENIMap :=
  (k, v) :: m.filter (fun e => e.1 ≠ k)

/-- Go `m[k]`, with `none` for an absent key. -/
def ENIMap.get (m : ENIMap) (k : String) : Option eniMeta :=
  (m.find? (fun e => e.1 = k)).map Prod.snd

/-- The results `(eniMetaMap, err)` of `getENIMetaMap`, and the metadata lookups the call
performed, in the order it performed them. -/
structure Discovery where
  eniMetaMap : ENIMap
  err : error
  lookups : List Lookup
  deriving DecidableEq, Repr

/-- The loop `for _, mac := range macList` of `getENIMetaMap`.  The named results are
returned as they stand at each bare `return`. -/
def getENIMetaMapLoop (ToLower : String → String) (metaCli : MetaData) (primaryMac : String) :
    List String → ENIMap → List Lookup → Discovery
  | [], eniMetaMap, done => ⟨eniMetaMap, none, done⟩
  | mac :: macList, eniMetaMap, done =>
    let imac := ToLower mac
    let primary := if imac = primaryMac then true else false
    match metaCli.EniPrimaryIpv4 mac with
    | .error err => ⟨eniMetaMap, some err, done ++ [.EniPrimaryIpv4 mac]⟩
    | .ok primaryIp =>
      match metaCli.EniIpv4SubnetMask mac primaryIp with
      | .error err =>
        ⟨eniMetaMap, some err, done ++ [.EniPrimaryIpv4 mac, .EniIpv4SubnetMask mac primaryIp]⟩
      | .ok mask =>
        match metaCli.EniIpv4GateWay mac primaryIp with
        | .error err =>
          ⟨eniMetaMap, some err, done ++ [.EniPrimaryIpv4 mac, .EniIpv4SubnetMask mac primaryIp,
            .EniIpv4GateWay mac primaryIp]⟩
        | .ok gateWay =>
          match metaCli.EniIpv4List mac with
          | .error err =>
            ⟨eniMetaMap, some err, done ++ [.EniPrimaryIpv4 mac,
              .EniIpv4SubnetMask mac primaryIp, .EniIpv4GateWay mac primaryIp,
              .EniIpv4List mac]⟩
          | .ok localIpList =>
            getENIMetaMapLoop ToLower metaCli primaryMac macList
              (eniMetaMap.set imac ⟨imac, primary, primaryIp, mask, gateWay, localIpList⟩)
              (done ++ [.EniPrimaryIpv4 mac, .EniIpv4SubnetMask mac primaryIp,
                .EniIpv4GateWay mac primaryIp, .EniIpv4List mac])

/-- Go `getENIMetaMap(metaCli)`.  `ToLower` is `strings.ToLower` of the Go standard library
(its Unicode case tables are not reproduced; every result below holds for any function). -/
def getENIMetaMap (ToLower : String → String) (metaCli : MetaData) : Discovery :=
  match metaCli.EniMacs with
  | .error err => ⟨[], some err, [.EniMacs]⟩
  | .ok macList =>
    match metaCli.Mac with
    | .error err => ⟨[], some err, [.EniMacs, .Mac]⟩
    | .ok primaryMac =>
      getENIMetaMapLoop ToLower metaCli (ToLower primaryMac) macList [] [.EniMacs, .Mac]

/-! ### Vocabulary for the statements about `getENIMetaMap` -/

/-- The result of one lookup on a metadata source: its error, if it fails. -/
def MetaData.failure (metaCli : MetaData) : Lookup → error
  | .EniMacs => match metaCli.EniMacs with | .error e => some e | .ok _ => none
  | .Mac => match metaCli.Mac with | .error e => some e | .ok _ => none
  | .EniPrimaryIpv4 mac =>
    match metaCli.EniPrimaryIpv4 mac with | .error e => some e | .ok _ => none
  | .EniIpv4SubnetMask mac ip =>
    match metaCli.EniIpv4SubnetMask mac ip with | .error e => some e | .ok _ => none
  | .EniIpv4GateWay mac ip =>
    match metaCli.EniIpv4GateWay mac ip with | .error e => some e | .ok _ => none
  | .EniIpv4List mac => match metaCli.EniIpv4List mac with | .error e => some e | .ok _ => none

/-- The primary IP a source reports for a MAC (the empty string if that lookup fails). -/
def MetaData.primaryIpOf (metaCli : MetaData) (mac : String) : String :=
  match metaCli.EniPrimaryIpv4 mac with
  | .ok ip => ip
  | .error _ => ""

/-- The four per-MAC lookups, in call order: primary IP, subnet mask, gateway, IP list. -/
def MetaData.macLookups (metaCli : MetaData) (mac : String) : List Lookup :=
  [.EniPrimaryIpv4 mac, .EniIpv4SubnetMask mac (metaCli.primaryIpOf mac),
   .EniIpv4GateWay mac (metaCli.primaryIpOf mac), .EniIpv4List mac]

/-- The call order of the spec: `EniMacs`, then `Mac`, then for each MAC in list order its
four lookups.  When `EniMacs` fails there is no list to go through. -/
def MetaData.callOrder (metaCli : MetaData) : List Lookup :=
  match metaCli.EniMacs with
  | .error _ => [.EniMacs, .Mac]
  | .ok macList => [.EniMacs, .Mac] ++ macList.flatMap metaCli.macLookups

/-- The error of the first failing lookup of a list of lookups. -/
def MetaData.firstFailure (metaCli : MetaData) : List Lookup → error
  | [] => none
  | l :: ls =>
    match metaCli.failure l with
    | some e => some e
    | none => metaCli.firstFailure ls

/-- The lookups of a list up to and including the first failing one. -/
def MetaData.throughFirstFailure (metaCli : MetaData) : List Lookup → List Lookup
  | [] => []
  | l :: ls =>
    match metaCli.failure l with
    | some _ => [l]
    | none => l :: metaCli.throughFirstFailure ls

/-- The source with its MAC list replaced. -/
def MetaData.withMacs (metaCli : MetaData) (macList : List String) : MetaData :=
  { metaCli with EniMacs := .ok macList }

/-- The keys of a map. -/
def ENIMap.keys (m : ENIMap) : List String := m.map Prod.fst

/-- All four lookups of a MAC succeed on the source. -/
def MetaData.macOK (metaCli : MetaData) (mac : String) : Prop :=
  ∀ l ∈ metaCli.macLookups mac, metaCli.failure l = none

/-- Every lookup of the call order succeeds on the source. -/
def MetaData.AllSucceed (metaCli : MetaData) : Prop :=
  ∀ l ∈ metaCli.callOrder, metaCli.failure l = none

/-- Some lookup of the call order fails on the source. -/
def MetaData.SomeFails (metaCli : MetaData) : Prop :=
  ∃ l ∈ metaCli.callOrder, metaCli.failure l ≠ none

instance (metaCli : MetaData) (mac : String) : Decidable (metaCli.macOK mac) := by
  unfold MetaData.macOK; infer_instance

instance (metaCli : MetaData) : Decidable metaCli.AllSucceed := by
  unfold MetaData.AllSucceed; infer_instance

instance (metaCli : MetaData) : Decidable metaCli.SomeFails := by
  unfold MetaData.SomeFails; infer_instance

/-- The record `getENIMetaMap` builds for a MAC from the values the source reports for it. -/
def MetaData.IsRecord (metaCli : MetaData) (ToLower : String → String) (primaryMac : String)
    (mac : String) (r : eniMeta) : Prop :=
  r.Mac = ToLower mac ∧
  r.Primary = decide (ToLower mac = primaryMac) ∧
  metaCli.EniPrimaryIpv4 mac = .ok r.PrimaryIp ∧
  metaCli.EniIpv4SubnetMask mac r.PrimaryIp = .ok r.Mask ∧
  metaCli.EniIpv4GateWay mac r.PrimaryIp = .ok r.GateWay ∧
  metaCli.EniIpv4List mac = .ok r.LocalIpList

/-- A source for examples: the MAC list, the primary MAC, and gateway lookups that fail for
the MACs of `badGateway`; all other lookups succeed. -/
def exampleSource (macs : List String) (primary : String) (badGateway : List String) :
    MetaData where
  EniMacs := .ok macs
  Mac := .ok primary
  EniPrimaryIpv4 := fun mac => .ok ("ip-" ++ mac)
  EniIpv4SubnetMask := fun _ _ => .ok "255.255.255.0"
  EniIpv4GateWay := fun mac ip =>
    if mac ∈ badGateway then .error (.other ("no gateway for " ++ mac)) else .ok ("gw-" ++ ip)
  EniIpv4List := fun mac => .ok ["ip-" ++ mac]

/-! ## Error classifiers -/

/-- Go `IsNotExistsError(err)`: the type assertion `err.(syscall.Errno)` succeeds exactly on
a non-nil error of dynamic type `syscall.Errno`. -/
def IsNotExistsError (err : error) : Bool :=
  match err with
  | some (.errno errno) => errno == ESRCH
  | _ => false

/-- Go `IsFileExistsError(err)`. -/
def IsFileExistsError (err : error) : Bool :=
  match err with
  | some (.errno errno) => errno == EEXIST
  | _ => false

end eni

namespace cloudprovider

/-! ## Package `cloudprovider` -/

/-- A non-nil Go `error` value of this package: an error produced by the remote call
(transport failure, deadline exceeded, status returned by the server), or the error built by
`fmt.Errorf`; both are identified by their text. -/
inductive CallError where
  | remote (text : String)
  | errorf (text : String)
  deriving DecidableEq, Repr

/-- Go `err.Error()`. -/
def CallError.Error : CallError → String
  | .remote text => text
  | .errorf text => text

/-- Go `error`: `none` is the nil error. -/
abbrev callError := Option CallError

/-- Modelled from the spec: the message types of package `rpc` are declared outside the two
source files; a request is a pass-through payload. -/
structure AssignIPRequest where
  payload : String
  deriving DecidableEq, Repr

/-- Modelled from the spec: a reply carries a success flag and a pass-through payload. -/
structure AssignIPReply where
  Success : Bool
  payload : String
  deriving DecidableEq, Repr

/-- Modelled from the spec: the request of the release operation, a pass-through payload. -/
structure UnAssignIPRequest where
  payload : String
  deriving DecidableEq, Repr

/-- Modelled from the spec: the reply of the release operation, a success flag and a
pass-through payload. -/
structure UnAssignIPReply where
  Success : Bool
  payload : String
  deriving DecidableEq, Repr

/-- A connection returned by `grpc.Dial`, by identity. -/
abbrev ClientConn := Nat

/-- A client handle `rpc.IPProviderServiceClient`, by identity. -/
abbrev IPProviderServiceClient := Nat

/-- What lies outside the package: the dialer, the constructor of client handles, the remote
service behind a handle (the outcome `(reply, err)` of a call made with the per-call
deadline), and the `%v` formatting of the messages (`nil` pointers are `none`). -/
structure Env where
  Dial : String → Except CallError ClientConn
  NewIPProviderServiceClient : ClientConn → IPProviderServiceClient
  AssignIP : IPProviderServiceClient → Option AssignIPRequest → Option AssignIPReply × callError
  UnAssignIP :
    IPProviderServiceClient → Option UnAssignIPRequest → Option UnAssignIPReply × callError
  fmtAssignIPRequest : Option AssignIPRequest → String
  fmtAssignIPReply : Option AssignIPReply → String
  fmtUnAssignIPRequest : Option UnAssignIPRequest → String
  fmtUnAssignIPReply : Option UnAssignIPReply → String

/-- Go `%v` of an `error`. -/
def fmtError : callError → String
  | none => "<nil>"
  | some e => e.Error

/-- Go `struct grpcCloudProvider`; `init` is the state of the `sync.Once` (true once its
function has run), `client` is nil until bound, `timeout` is in nanoseconds. -/
structure grpcCloudProvider where
  init : Bool
  cloudProviderAddr : String
  client : Option IPProviderServiceClient
  timeout : Nat
  deriving DecidableEq, Repr

/-- A process holding one provider, with two observations: `dials` counts the executions of
the function passed to `init.Do`, `calls` lists the handles through which remote calls were
issued, oldest first. `exited` is set by `glog.Fatalf`, `panicked` by a call through a nil
handle. -/
structure Process where
  p : grpcCloudProvider
  dials : Nat
  calls : List IPProviderServiceClient
  exited : Bool
  panicked : Bool
  deriving DecidableEq, Repr

/-- Go `NewGRPCCloudProvider(cloudProviderAddr)`. -/
def NewGRPCCloudProvider (cloudProviderAddr : String) : grpcCloudProvider :=
  { init := false, cloudProviderAddr := cloudProviderAddr, client := none,
    timeout := 60 * 1000000000 }

/-- A process right after the construction of its provider. -/
def Process.start (cloudProviderAddr : String) : Process :=
  { p := NewGRPCCloudProvider cloudProviderAddr, dials := 0, calls := [], exited := false,
    panicked := false }

/-- Go `(p *grpcCloudProvider).connect()`: `sync.Once.Do` runs its function only while the
once is not done; the function dials, exits the process on failure and binds the client
otherwise. -/
def connect (env : Env) (s : Process) : Process :=
  if s.p.init then s
  else
    let s1 := { s with dials := s.dials + 1 }
    match env.Dial s.p.cloudProviderAddr with
    | .error _ => { s1 with exited := true }
    | .ok conn =>
      { s1 with p := { s1.p with client := some (env.NewIPProviderServiceClient conn),
                                 init := true } }

/-- Go `(p *grpcCloudProvider).AssignIP(in)`: the process afterwards and, when the call
returns, its results `(reply, err)`. -/
def AssignIP (env : Env) (s : Process) (req : Option AssignIPRequest) :
    Process × Option (Option AssignIPReply × callError) :=
  let s1 := connect env s
  if s1.exited then (s1, none)
  else
    match s1.p.client with
    | none => ({ s1 with panicked := true }, none)
    | some client =>
      let s2 := { s1 with calls := s1.calls ++ [client] }
      let (reply, err) := env.AssignIP client req
      let failed : Bool :=
        err ≠ none || (match reply with | none => true | some r => !r.Success)
      if failed then
        (s2, some (reply, some (.errorf ("AssignIP for " ++ env.fmtAssignIPRequest req ++
          " failed: reply " ++ env.fmtAssignIPReply reply ++ ", err " ++ fmtError err))))
      else (s2, some (reply, err))

/-- Go `(p *grpcCloudProvider).UnAssignIP(in)`. -/
def UnAssignIP (env : Env) (s : Process) (req : Option UnAssignIPRequest) :
    Process × Option (Option UnAssignIPReply × callError) :=
  let s1 := connect env s
  if s1.exited then (s1, none)
  else
    match s1.p.client with
    | none => ({ s1 with panicked := true }, none)
    | some client =>
      let s2 := { s1 with calls := s1.calls ++ [client] }
      let (reply, err) := env.UnAssignIP client req
      let failed : Bool :=
        err ≠ none || (match reply with | none => true | some r => !r.Success)
      if failed then
        (s2, some (reply, some (.errorf ("UnAssignIP for " ++ env.fmtUnAssignIPRequest req ++
          " failed: reply " ++ env.fmtUnAssignIPReply reply ++ ", err " ++ fmtError err))))
      else (s2, some (reply, err))

/-- A connected, running process. -/
def Connected (s : Process) (c : IPProviderServiceClient) : Prop :=
  s.p.init = true ∧ s.p.client = some c ∧ s.exited = false ∧ s.panicked = false

/-- One invocation of the provider by a caller. -/
inductive Invocation where
  | AssignIP (req : Option AssignIPRequest)
  | UnAssignIP (req : Option UnAssignIPRequest)
  deriving DecidableEq, Repr

/-- The process after one invocation. -/
def invoke (env : Env) (s : Process) : Invocation → Process
  | .AssignIP req => (AssignIP env s req).1
  | .UnAssignIP req => (UnAssignIP env s req).1

/-- The process after a sequence of invocations; nothing runs once the process has exited
or panicked. -/
def run (env : Env) : Process → List Invocation → Process
  | s, [] => s
  | s, i :: is => if s.exited || s.panicked then s else run env (invoke env s i) is

/-- An environment for examples: dialing succeeds unless the address is empty, the service
answers every request whose payload is not "bad" with success. -/
def exampleEnv : Env where
  Dial := fun addr => if addr = "" then .error (.remote "no address") else .ok 7
  NewIPProviderServiceClient := fun conn => conn + 1
  AssignIP := fun _ req =>
    match req with
    | none => (none, some (.remote "nil request"))
    | some r => if r.payload = "bad" then (some ⟨false, "refused"⟩, none)
                else (some ⟨true, r.payload⟩, none)
  UnAssignIP := fun _ req =>
    match req with
    | none => (none, some (.remote "nil request"))
    | some r => if r.payload = "bad" then (some ⟨false, "refused"⟩, none)
                else (some ⟨true, r.payload⟩, none)
  fmtAssignIPRequest := fun r => match r with | none => "<nil>" | some r => r.payload
  fmtAssignIPReply := fun r => match r with | none => "<nil>" | some r => r.payload
  fmtUnAssignIPRequest := fun r => match r with | none => "<nil>" | some r => r.payload
  fmtUnAssignIPReply := fun r => match r with | none => "<nil>" | some r => r.payload

end cloudprovider

namespace eni

/-! ## Results on `getENIIndex` -/

theorem digitVal_digitChar (k : Nat) (hk : k < 10) : digitVal (Nat.digitChar k) = some k := by
  interval_cases k <;> rfl

theorem digitChar_not_in_devPrefix (k : Nat) (hk : k < 10) :
    Nat.digitChar k ≠ 'e' ∧ Nat.digitChar k ≠ 't' ∧ Nat.digitChar k ≠ 'h' := by
  interval_cases k <;> decide

theorem digitChar_not_sign (k : Nat) (hk : k < 10) :
    Nat.digitChar k ≠ '+' ∧ Nat.digitChar k ≠ '-' := by
  interval_cases k <;> decide

/-- Parsing the digits printed for `n` in front of `acc`, from 0, is parsing `acc` from
`n`. -/
theorem parseUintLoop_toDigitsCore (fuel : Nat) :
    ∀ (n : Nat) (acc : List Char), n < fuel → n ≤ 4294967295 →
      parseUintLoop 10 4294967295 (Nat.toDigitsCore 10 fuel n acc) 0
        = parseUintLoop 10 4294967295 acc n := by
  induction fuel with
  | zero => intro n acc h; omega
  | succ fuel ih =>
    intro n acc hlt hmax
    have hstep : ∀ m, m ≤ 429496729 → m * 10 + n % 10 ≤ 4294967295 →
        parseUintLoop 10 4294967295 (Nat.digitChar (n % 10) :: acc) m
          = parseUintLoop 10 4294967295 acc (m * 10 + n % 10) := by
      intro m hm hle
      have hd : n % 10 < 10 := Nat.mod_lt _ (by norm_num)
      have h1 : (m * 10) % 18446744073709551616 = m * 10 := Nat.mod_eq_of_lt (by omega)
      have h2 : (m * 10 + n % 10) % 18446744073709551616 = m * 10 + n % 10 :=
        Nat.mod_eq_of_lt (by omega)
      simp only [parseUintLoop, digitVal_digitChar _ hd, maxUint64]
      norm_num
      rw [if_neg (by omega), if_neg (by omega)]
      rw [h1, h2, if_neg (by omega)]
    simp only [Nat.toDigitsCore]
    by_cases h0 : n / 10 = 0
    · simp only [h0, if_true]
      have := hstep 0 (by omega) (by omega)
      rw [this]
      congr 1
      omega
    · simp only [h0, if_false]
      rw [ih (n / 10) _ (by omega) (by omega)]
      rw [hstep (n / 10) (by omega) (by omega)]
      congr 1
      omega

theorem toDigitsCore_head (fuel : Nat) :
    ∀ (n k : Nat) (acc : List Char), k < 10 →
      ∃ j cs, j < 10 ∧ Nat.toDigitsCore 10 fuel n (Nat.digitChar k :: acc)
        = Nat.digitChar j :: cs := by
  induction fuel with
  | zero => intro n k acc hk; exact ⟨k, acc, hk, rfl⟩
  | succ fuel ih =>
    intro n k acc hk
    simp only [Nat.toDigitsCore]
    by_cases h0 : n / 10 = 0
    · simp only [h0, if_true]
      exact ⟨n % 10, _, Nat.mod_lt _ (by norm_num), rfl⟩
    · simp only [h0, if_false]
      exact ih (n / 10) (n % 10) _ (Nat.mod_lt _ (by norm_num))

theorem toDigits_eq_cons (n : Nat) :
    ∃ k cs, k < 10 ∧ Nat.toDigits 10 n = Nat.digitChar k :: cs := by
  simp only [Nat.toDigits, Nat.toDigitsCore]
  by_cases h0 : n / 10 = 0
  · simp only [h0, if_true]
    exact ⟨n % 10, _, Nat.mod_lt _ (by norm_num), rfl⟩
  · simp only [h0, if_false]
    exact toDigitsCore_head n (n / 10) (n % 10) [] (Nat.mod_lt _ (by norm_num))

theorem ParseUint_toDigits (n : Nat) (h : n ≤ 4294967295) :
    ParseUint (Nat.toDigits 10 n) 10 32 = (n, none) := by
  obtain ⟨k, cs, _, hcs⟩ := toDigits_eq_cons n
  have hne : Nat.toDigits 10 n ≠ [] := by rw [hcs]; simp
  have h32 : 2 ^ 32 - 1 = 4294967295 := by norm_num
  simp only [ParseUint, hne, if_false, h32]
  rw [Nat.toDigits, parseUintLoop_toDigitsCore (n + 1) n [] (by omega) h]
  rfl

theorem TrimLeft_devPrefix_decimal (n : Nat) :
    TrimLeft (devPrefix ++ toString n) devPrefix = toString n := by
  obtain ⟨k, cs, hk, hcs⟩ := toDigits_eq_cons n
  have hd : (toString n).data = Nat.digitChar k :: cs := by
    rw [← hcs]; rfl
  obtain ⟨h1, h2, h3⟩ := digitChar_not_in_devPrefix k hk
  apply String.ext
  simp only [TrimLeft, String.data_append, hd]
  have : devPrefix.data = ['e', 't', 'h'] := rfl
  rw [this]
  simp [List.dropWhile, h1, h2, h3]

theorem ParseInt_decimal (n : Nat) (h : n ≤ 2 ^ 31 - 1) :
    ParseInt (toString n) 10 32 = (Int.ofNat n, none) := by
  obtain ⟨k, cs, hk, hcs⟩ := toDigits_eq_cons n
  have hd : (toString n).data = Nat.toDigits 10 n := rfl
  have hs := digitChar_not_sign k hk
  have hn : n ≤ 2147483647 := by norm_num at h; exact h
  have hU := ParseUint_toDigits n (by omega)
  rw [hcs] at hU
  simp only [ParseInt, hd, hcs]
  simp only [hs.1, hs.2, or_self, if_false, hU]
  norm_num
  omega

/-- C5. For every natural number `n` with `n ≤ 2^31 - 1`, `getENIIndex` applied to
`devPrefix` ("eth") followed by the decimal representation of `n` returns the index `n` and
a nil error. -/
theorem getENIIndex_decimal (n : Nat) (h : n ≤ 2 ^ 31 - 1) :
    getENIIndex (devPrefix ++ toString n) = (Int.ofNat n, none) := by
  simp only [getENIIndex, TrimLeft_devPrefix_decimal, ParseInt_decimal n h]
  simp

theorem getENIIndex_decimal_witness :
    (3 : Nat) ≤ 2 ^ 31 - 1 ∧ getENIIndex "eth3" = (3, none) :=
  ⟨by norm_num, getENIIndex_decimal 3 (by norm_num)⟩

/-- C4. `getENIIndex` removes the characters of `devPrefix` as a cutset: for the interface
name "ethe3", which is `devPrefix` followed by the remainder "e3", the remainder is not a
base-10 integer (parsing it is a syntax error), yet the call returns index 3 and a nil
error. -/
theorem getENIIndex_cutset_not_prefix :
    "ethe3" = devPrefix ++ "e3" ∧
    ParseInt "e3" 10 32 = (0, some (.numError "ParseInt" "e3" .ErrSyntax)) ∧
    getENIIndex "ethe3" = (3, none) := by
  decide

/-! ## Results on `getENIMetaMap` -/

theorem find_filter_ne (m : ENIMap) (k k2 : String) (h : k2 ≠ k) :
    (m.filter (fun e => e.1 ≠ k)).find? (fun e => e.1 = k2)
      = m.find? (fun e => e.1 = k2) := by
  induction m with
  | nil => rfl
  | cons e m ih =>
    rw [List.filter_cons]
    by_cases hk : e.1 = k
    · have hk2 : ¬ e.1 = k2 := fun h2 => h (h2.symm.trans hk)
      rw [if_neg (by simpa using hk), ih, List.find?_cons_of_neg _ (by simpa using hk2)]
    · rw [if_pos (by simpa using hk)]
      by_cases hk2 : e.1 = k2
      · rw [List.find?_cons_of_pos _ (by simpa using hk2),
          List.find?_cons_of_pos _ (by simpa using hk2)]
      · rw [List.find?_cons_of_neg _ (by simpa using hk2),
          List.find?_cons_of_neg _ (by simpa using hk2), ih]

theorem get_set (m : ENIMap) (k k2 : String) (v : eniMeta) :
    (m.set k v).get k2 = if k2 = k then some v else m.get k2 := by
  by_cases h : k2 = k
  · subst h
    simp [ENIMap.set, ENIMap.get]
  · have h2 : ¬ k = k2 := fun e => h e.symm
    simp only [ENIMap.set, ENIMap.get, if_neg h]
    rw [List.find?_cons_of_neg _ (by simpa using h2), find_filter_ne m k k2 h]

theorem mem_set (m : ENIMap) (k : String) (v : eniMeta) (e : String × eniMeta) :
    e ∈ m.set k v ↔ e = (k, v) ∨ (e ∈ m ∧ e.1 ≠ k) := by
  simp [ENIMap.set]

theorem keys_set_nodup (m : ENIMap) (k : String) (v : eniMeta) (h : m.keys.Nodup) :
    (m.set k v).keys.Nodup := by
  have hsub : ((m.filter (fun e => e.1 ≠ k)).map Prod.fst).Nodup :=
    (List.filter_sublist m).map Prod.fst |>.nodup h
  simp only [ENIMap.set, ENIMap.keys, List.map_cons, List.nodup_cons]
  refine ⟨?_, hsub⟩
  simp

theorem macOK_iff (metaCli : MetaData) (mac : String) :
    metaCli.macOK mac ↔ ∃ ip mask gw l, metaCli.EniPrimaryIpv4 mac = .ok ip ∧
      metaCli.EniIpv4SubnetMask mac ip = .ok mask ∧
      metaCli.EniIpv4GateWay mac ip = .ok gw ∧ metaCli.EniIpv4List mac = .ok l := by
  constructor
  · intro h
    have h1 := h (.EniPrimaryIpv4 mac) (by simp [MetaData.macLookups])
    have h2 := h (.EniIpv4SubnetMask mac (metaCli.primaryIpOf mac))
      (by simp [MetaData.macLookups])
    have h3 := h (.EniIpv4GateWay mac (metaCli.primaryIpOf mac))
      (by simp [MetaData.macLookups])
    have h4 := h (.EniIpv4List mac) (by simp [MetaData.macLookups])
    rcases e1 : metaCli.EniPrimaryIpv4 mac with e | ip
    · simp [MetaData.failure, e1] at h1
    · have hp : metaCli.primaryIpOf mac = ip := by simp [MetaData.primaryIpOf, e1]
      rw [hp] at h2 h3
      rcases e2 : metaCli.EniIpv4SubnetMask mac ip with e | mask
      · simp [MetaData.failure, e2] at h2
      · rcases e3 : metaCli.EniIpv4GateWay mac ip with e | gw
        · simp [MetaData.failure, e3] at h3
        · rcases e4 : metaCli.EniIpv4List mac with e | l
          · simp [MetaData.failure, e4] at h4
          · exact ⟨ip, mask, gw, l, rfl, e2, e3, rfl⟩
  · rintro ⟨ip, mask, gw, l, h1, h2, h3, h4⟩ x hx
    have hp : metaCli.primaryIpOf mac = ip := by simp [MetaData.primaryIpOf, h1]
    simp only [MetaData.macLookups, hp, List.mem_cons, List.mem_singleton,
      List.not_mem_nil, or_false] at hx
    rcases hx with rfl | rfl | rfl | rfl <;> simp [MetaData.failure, h1, h2, h3, h4]

/-- One turn of the loop on a MAC whose four lookups succeed. -/
theorem loop_cons_ok (ToLower : String → String) (metaCli : MetaData) (primaryMac mac : String)
    (h : metaCli.macOK mac) :
    ∃ r, metaCli.IsRecord ToLower primaryMac mac r ∧
      ∀ rest m done, getENIMetaMapLoop ToLower metaCli primaryMac (mac :: rest) m done
        = getENIMetaMapLoop ToLower metaCli primaryMac rest (m.set (ToLower mac) r)
            (done ++ metaCli.macLookups mac) := by
  obtain ⟨ip, mask, gw, l, h1, h2, h3, h4⟩ := (macOK_iff metaCli mac).1 h
  have hp : metaCli.primaryIpOf mac = ip := by simp [MetaData.primaryIpOf, h1]
  refine ⟨⟨ToLower mac, decide (ToLower mac = primaryMac), ip, mask, gw, l⟩,
    ⟨rfl, rfl, h1, h2, h3, h4⟩, ?_⟩
  intro rest m done
  simp only [getENIMetaMapLoop, h1, h2, h3, h4, MetaData.macLookups, hp]
  by_cases hprim : ToLower mac = primaryMac <;> simp [hprim]

/-- One turn of the loop on a MAC one of whose lookups fails: the map is returned as it
stands. -/
theorem loop_cons_fail (ToLower : String → String) (metaCli : MetaData)
    (primaryMac mac : String) (h : ¬ metaCli.macOK mac) (rest : List String) (m : ENIMap)
    (done : List Lookup) :
    ∃ e ls, getENIMetaMapLoop ToLower metaCli primaryMac (mac :: rest) m done
      = ⟨m, some e, ls⟩ := by
  rw [macOK_iff] at h
  rcases e1 : metaCli.EniPrimaryIpv4 mac with e | ip
  · exact ⟨e, _, by simp only [getENIMetaMapLoop, e1]; rfl⟩
  · rcases e2 : metaCli.EniIpv4SubnetMask mac ip with e | mask
    · exact ⟨e, _, by simp only [getENIMetaMapLoop, e1, e2]; rfl⟩
    · rcases e3 : metaCli.EniIpv4GateWay mac ip with e | gw
      · exact ⟨e, _, by simp only [getENIMetaMapLoop, e1, e2, e3]; rfl⟩
      · rcases e4 : metaCli.EniIpv4List mac with e | l
        · exact ⟨e, _, by simp only [getENIMetaMapLoop, e1, e2, e3, e4]; rfl⟩
        · exact absurd ⟨ip, mask, gw, l, e1, e2, e3, e4⟩ h

theorem firstFailure_append_ok (metaCli : MetaData) (A X : List Lookup)
    (h : ∀ l ∈ A, metaCli.failure l = none) :
    metaCli.firstFailure (A ++ X) = metaCli.firstFailure X ∧
    metaCli.throughFirstFailure (A ++ X) = A ++ metaCli.throughFirstFailure X := by
  induction A with
  | nil => exact ⟨rfl, rfl⟩
  | cons a A ih =>
    have ha := h a (by simp)
    have ih2 := ih (fun l hl => h l (by simp [hl]))
    simp [MetaData.firstFailure, MetaData.throughFirstFailure, ha, ih2.1, ih2.2]

/-- The loop performs the per-MAC lookups in list order up to and including the first
failing one, and returns the error of that one. -/
theorem loop_trace (ToLower : String → String) (metaCli : MetaData) (primaryMac : String)
    (macs : List String) :
    ∀ (m : ENIMap) (done : List Lookup),
      (getENIMetaMapLoop ToLower metaCli primaryMac macs m done).lookups
        = done ++ metaCli.throughFirstFailure (macs.flatMap metaCli.macLookups) ∧
      (getENIMetaMapLoop ToLower metaCli primaryMac macs m done).err
        = metaCli.firstFailure (macs.flatMap metaCli.macLookups) := by
  induction macs with
  | nil =>
    intro m done
    simp [getENIMetaMapLoop, MetaData.firstFailure, MetaData.throughFirstFailure]
  | cons mac rest ih =>
    intro m done
    by_cases hok : metaCli.macOK mac
    · obtain ⟨r, _, hstep⟩ := loop_cons_ok ToLower metaCli primaryMac mac hok
      have happ := firstFailure_append_ok metaCli (metaCli.macLookups mac)
        (rest.flatMap metaCli.macLookups) hok
      rw [hstep, List.flatMap_cons, happ.1, happ.2, (ih _ _).1, (ih _ _).2]
      simp [List.append_assoc]
    · rw [macOK_iff] at hok
      rcases e1 : metaCli.EniPrimaryIpv4 mac with e | ip
      · simp [getENIMetaMapLoop, e1, MetaData.macLookups, MetaData.firstFailure,
          MetaData.throughFirstFailure, MetaData.failure]
      · have hp : metaCli.primaryIpOf mac = ip := by simp [MetaData.primaryIpOf, e1]
        rcases e2 : metaCli.EniIpv4SubnetMask mac ip with e | mask
        · simp [getENIMetaMapLoop, e1, e2, hp, MetaData.macLookups, MetaData.firstFailure,
            MetaData.throughFirstFailure, MetaData.failure]
        · rcases e3 : metaCli.EniIpv4GateWay mac ip with e | gw
          · simp [getENIMetaMapLoop, e1, e2, e3, hp, MetaData.macLookups,
              MetaData.firstFailure, MetaData.throughFirstFailure, MetaData.failure]
          · rcases e4 : metaCli.EniIpv4List mac with e | l
            · simp [getENIMetaMapLoop, e1, e2, e3, e4, hp, MetaData.macLookups,
                MetaData.firstFailure, MetaData.throughFirstFailure, MetaData.failure]
            · exact absurd ⟨ip, mask, gw, l, e1, e2, e3, e4⟩ hok

/-- The lookups `getENIMetaMap` performs and the error it returns, in terms of the call
order. -/
theorem getENIMetaMap_trace (ToLower : String → String) (metaCli : MetaData) :
    (getENIMetaMap ToLower metaCli).lookups
      = metaCli.throughFirstFailure metaCli.callOrder ∧
    (getENIMetaMap ToLower metaCli).err = metaCli.firstFailure metaCli.callOrder := by
  rcases e1 : metaCli.EniMacs with e | macs
  · simp [getENIMetaMap, e1, MetaData.callOrder, MetaData.firstFailure,
      MetaData.throughFirstFailure, MetaData.failure]
  · rcases e2 : metaCli.Mac with e | p
    · simp [getENIMetaMap, e1, e2, MetaData.callOrder, MetaData.firstFailure,
        MetaData.throughFirstFailure, MetaData.failure]
    · have h := loop_trace ToLower metaCli (ToLower p) macs [] [.EniMacs, .Mac]
      simp [getENIMetaMap, e1, e2, MetaData.callOrder, MetaData.firstFailure,
        MetaData.throughFirstFailure, MetaData.failure, h.1, h.2]

theorem exists_first_failure (metaCli : MetaData) (L : List Lookup)
    (h : ∃ l ∈ L, metaCli.failure l ≠ none) :
    ∃ pre l post e, L = pre ++ l :: post ∧ (∀ x ∈ pre, metaCli.failure x = none) ∧
      metaCli.failure l = some e ∧ metaCli.firstFailure L = some e ∧
      metaCli.throughFirstFailure L = pre ++ [l] := by
  induction L with
  | nil => obtain ⟨l, hl, _⟩ := h; simp at hl
  | cons a L ih =>
    rcases ha : metaCli.failure a with _ | e
    · have h2 : ∃ l ∈ L, metaCli.failure l ≠ none := by
        obtain ⟨l, hl, hf⟩ := h
        rcases List.mem_cons.1 hl with rfl | hl
        · exact absurd ha hf
        · exact ⟨l, hl, hf⟩
      obtain ⟨pre, l, post, e, hL, hpre, hl, hff, htf⟩ := ih h2
      refine ⟨a :: pre, l, post, e, by simp [hL], ?_, hl, ?_, ?_⟩
      · intro x hx
        rcases List.mem_cons.1 hx with rfl | hx
        · exact ha
        · exact hpre x hx
      · simp [MetaData.firstFailure, ha, hff]
      · simp [MetaData.throughFirstFailure, ha, htf]
    · exact ⟨[], a, L, e, rfl, by simp, ha, by simp [MetaData.firstFailure, ha],
        by simp [MetaData.throughFirstFailure, ha]⟩

/-- C10. On a source on which some lookup of the call order (`EniMacs`, `Mac`, then for each
MAC in list order its primary IP, subnet mask, gateway and IP list) fails, the error
`getENIMetaMap` returns is the error of the first failing lookup of that order, and the
lookups it performs are exactly those up to and including that one: none is made after the
failure. -/
theorem first_failure_returned (ToLower : String → String) (metaCli : MetaData)
    (h : metaCli.SomeFails) :
    ∃ pre l post e, metaCli.callOrder = pre ++ l :: post ∧
      (∀ x ∈ pre, metaCli.failure x = none) ∧ metaCli.failure l = some e ∧
      (getENIMetaMap ToLower metaCli).err = some e ∧
      (getENIMetaMap ToLower metaCli).lookups = pre ++ [l] := by
  obtain ⟨pre, l, post, e, hL, hpre, hl, hff, htf⟩ :=
    exists_first_failure metaCli metaCli.callOrder h
  have ht := getENIMetaMap_trace ToLower metaCli
  exact ⟨pre, l, post, e, hL, hpre, hl, ht.2.trans hff, ht.1.trans htf⟩

theorem first_failure_returned_witness :
    (exampleSource ["AA:BB", "CC:DD"] "aa:bb" ["CC:DD"]).SomeFails ∧
    ∃ pre l post e,
      (exampleSource ["AA:BB", "CC:DD"] "aa:bb" ["CC:DD"]).callOrder = pre ++ l :: post ∧
      (∀ x ∈ pre, (exampleSource ["AA:BB", "CC:DD"] "aa:bb" ["CC:DD"]).failure x = none) ∧
      (exampleSource ["AA:BB", "CC:DD"] "aa:bb" ["CC:DD"]).failure l = some e ∧
      (getENIMetaMap asciiToLower (exampleSource ["AA:BB", "CC:DD"] "aa:bb" ["CC:DD"])).err
        = some e ∧
      (getENIMetaMap asciiToLower
        (exampleSource ["AA:BB", "CC:DD"] "aa:bb" ["CC:DD"])).lookups = pre ++ [l] :=
  ⟨⟨.EniIpv4GateWay "CC:DD" "ip-CC:DD", by decide, by decide⟩,
    first_failure_returned asciiToLower (exampleSource ["AA:BB", "CC:DD"] "aa:bb" ["CC:DD"])
      ⟨.EniIpv4GateWay "CC:DD" "ip-CC:DD", by decide, by decide⟩⟩

theorem mem_keys_set (m : ENIMap) (k0 : String) (v : eniMeta) (k : String) :
    k ∈ (m.set k0 v).keys ↔ k = k0 ∨ k ∈ m.keys := by
  simp only [ENIMap.set, ENIMap.keys, List.map_cons, List.mem_cons, List.mem_map,
    List.mem_filter]
  constructor
  · rintro (h | ⟨e, ⟨he, _⟩, rfl⟩)
    · exact Or.inl h
    · exact Or.inr ⟨e, he, rfl⟩
  · rintro (h | ⟨e, he, rfl⟩)
    · exact Or.inl h
    · by_cases hk : e.1 = k0
      · exact Or.inl hk
      · exact Or.inr ⟨e, ⟨he, by simpa using hk⟩, rfl⟩

theorem loop_withMacs (ToLower : String → String) (metaCli : MetaData) (primaryMac : String)
    (pre macs : List String) :
    ∀ (m : ENIMap) (done : List Lookup),
      getENIMetaMapLoop ToLower (metaCli.withMacs pre) primaryMac macs m done
        = getENIMetaMapLoop ToLower metaCli primaryMac macs m done := by
  induction macs with
  | nil => intro m done; rfl
  | cons mac rest ih =>
    intro m done
    simp only [MetaData.withMacs] at ih ⊢
    simp only [getENIMetaMapLoop, ih]

/-- What the loop returns when every MAC of the list has four successful lookups. -/
theorem loop_success (ToLower : String → String) (metaCli : MetaData) (primaryMac : String)
    (macs : List String) :
    ∀ (m : ENIMap) (done : List Lookup), (∀ x ∈ macs, metaCli.macOK x) →
      (getENIMetaMapLoop ToLower metaCli primaryMac macs m done).err = none ∧
      (∀ k, k ∈ (getENIMetaMapLoop ToLower metaCli primaryMac macs m done).eniMetaMap.keys
        ↔ k ∈ m.keys ∨ k ∈ macs.map ToLower) ∧
      (m.keys.Nodup →
        (getENIMetaMapLoop ToLower metaCli primaryMac macs m done).eniMetaMap.keys.Nodup) ∧
      (∀ e ∈ (getENIMetaMapLoop ToLower metaCli primaryMac macs m done).eniMetaMap,
        e ∈ m ∨ ∃ mac ∈ macs, e.1 = ToLower mac ∧
          metaCli.IsRecord ToLower primaryMac mac e.2) ∧
      (∀ k, k ∉ macs.map ToLower →
        (getENIMetaMapLoop ToLower metaCli primaryMac macs m done).eniMetaMap.get k
          = m.get k) ∧
      ((macs.map ToLower).Nodup → ∀ mac ∈ macs, ∃ r,
        (getENIMetaMapLoop ToLower metaCli primaryMac macs m done).eniMetaMap.get
          (ToLower mac) = some r ∧ metaCli.IsRecord ToLower primaryMac mac r) := by
  induction macs with
  | nil =>
    intro m done _
    simp [getENIMetaMapLoop]
  | cons mac rest ih =>
    intro m done hall
    obtain ⟨r, hr, hstep⟩ := loop_cons_ok ToLower metaCli primaryMac mac (hall mac (by simp))
    obtain ⟨i1, i2, i3, i4, i5, i6⟩ := ih (m.set (ToLower mac) r)
      (done ++ metaCli.macLookups mac) (fun x hx => hall x (by simp [hx]))
    rw [hstep]
    refine ⟨i1, ?_, ?_, ?_, ?_, ?_⟩
    · intro k
      rw [i2 k, mem_keys_set]
      simp only [List.map_cons, List.mem_cons]
      tauto
    · intro hm
      exact i3 (keys_set_nodup m _ r hm)
    · intro e he
      rcases i4 e he with h | ⟨mac2, hmac2, h1, h2⟩
      · rcases (mem_set m _ r e).1 h with rfl | ⟨h, _⟩
        · exact Or.inr ⟨mac, by simp, rfl, hr⟩
        · exact Or.inl h
      · exact Or.inr ⟨mac2, by simp [hmac2], h1, h2⟩
    · intro k hk
      simp only [List.map_cons, List.mem_cons, not_or] at hk
      rw [i5 k hk.2, get_set, if_neg hk.1]
    · intro hnd mac2 hmac2
      simp only [List.map_cons, List.nodup_cons] at hnd
      rcases List.mem_cons.1 hmac2 with rfl | hmem
      · refine ⟨r, ?_, hr⟩
        rw [i5 _ hnd.1, get_set, if_pos rfl]
      · exact i6 hnd.2 mac2 hmem

theorem getENIMetaMap_eq_loop (ToLower : String → String) (metaCli : MetaData)
    (macList : List String) (primaryMac : String) (hMacs : metaCli.EniMacs = .ok macList)
    (hMac : metaCli.Mac = .ok primaryMac) :
    getENIMetaMap ToLower metaCli
      = getENIMetaMapLoop ToLower metaCli (ToLower primaryMac) macList [] [.EniMacs, .Mac] := by
  simp [getENIMetaMap, hMacs, hMac]

theorem allSucceed_parts (metaCli : MetaData) (h : metaCli.AllSucceed) :
    ∃ macList primaryMac, metaCli.EniMacs = .ok macList ∧ metaCli.Mac = .ok primaryMac ∧
      ∀ x ∈ macList, metaCli.macOK x := by
  rcases e1 : metaCli.EniMacs with e | macList
  · have := h .EniMacs (by simp [MetaData.callOrder, e1])
    simp [MetaData.failure, e1] at this
  · rcases e2 : metaCli.Mac with e | primaryMac
    · have := h .Mac (by simp [MetaData.callOrder, e1])
      simp [MetaData.failure, e2] at this
    · refine ⟨macList, primaryMac, rfl, rfl, ?_⟩
      intro x hx l hl
      apply h l
      simp only [MetaData.callOrder, e1, List.mem_append, List.mem_flatMap]
      exact Or.inr ⟨x, hx, hl⟩

theorem filter_primary_length (m : ENIMap) (k : String) :
    m.keys.Nodup → k ∈ m.keys → (∀ e ∈ m, (e.2.Primary = true ↔ e.1 = k)) →
      (m.filter (fun e => e.2.Primary)).length = 1 := by
  induction m with
  | nil => intro _ hk; simp [ENIMap.keys] at hk
  | cons e m ih =>
    intro hnd hk hall
    simp only [ENIMap.keys, List.map_cons, List.nodup_cons] at hnd
    have he := hall e (by simp)
    by_cases hek : e.1 = k
    · have hnone : m.filter (fun e => e.2.Primary) = [] := by
        rw [List.filter_eq_nil_iff]
        intro e2 he2 hp
        have h2 : e2.1 = k := (hall e2 (by simp [he2])).1 hp
        exact hnd.1 (List.mem_map.2 ⟨e2, he2, h2.trans hek.symm⟩)
      rw [List.filter_cons, if_pos (he.2 hek), hnone]
      rfl
    · have hp : ¬ e.2.Primary = true := fun h => hek (he.1 h)
      have hk2 : k ∈ ENIMap.keys m := by
        simp only [ENIMap.keys, List.map_cons, List.mem_cons] at hk
        rcases hk with h | h
        · exact absurd h.symm hek
        · exact h
      rw [List.filter_cons, if_neg hp]
      exact ih hnd.2 hk2 (fun e2 he2 => hall e2 (by simp [he2]))

theorem exists_first_bad (P : String → Prop) (L : List String) (h : ∃ x ∈ L, ¬ P x) :
    ∃ pre a post, L = pre ++ a :: post ∧ (∀ x ∈ pre, P x) ∧ ¬ P a := by
  induction L with
  | nil => obtain ⟨x, hx, _⟩ := h; simp at hx
  | cons a L ih =>
    by_cases ha : P a
    · have h2 : ∃ x ∈ L, ¬ P x := by
        obtain ⟨x, hx, hp⟩ := h
        rcases List.mem_cons.1 hx with rfl | hx
        · exact absurd ha hp
        · exact ⟨x, hx, hp⟩
      obtain ⟨pre, b, post, hL, hpre, hb⟩ := ih h2
      refine ⟨a :: pre, b, post, by simp [hL], ?_, hb⟩
      intro x hx
      rcases List.mem_cons.1 hx with rfl | hx
      · exact ha
      · exact hpre x hx
    · exact ⟨[], a, L, rfl, by simp, ha⟩

/-- A failure on a MAC returns the map built from the MACs before it. -/
theorem loop_stops_at_failure (ToLower : String → String) (metaCli : MetaData) (primaryMac mac : String)
    (post : List String) (hbad : ¬ metaCli.macOK mac) (pre : List String) :
    ∀ (m : ENIMap) (done : List Lookup), (∀ x ∈ pre, metaCli.macOK x) →
      (getENIMetaMapLoop ToLower metaCli primaryMac (pre ++ mac :: post) m done).eniMetaMap
        = (getENIMetaMapLoop ToLower metaCli primaryMac pre m done).eniMetaMap := by
  induction pre with
  | nil =>
    intro m done _
    obtain ⟨e, ls, h⟩ := loop_cons_fail ToLower metaCli primaryMac mac hbad post m done
    rw [List.nil_append, h]
    rfl
  | cons p pre ih =>
    intro m done hall
    obtain ⟨r, _, hstep⟩ := loop_cons_ok ToLower metaCli primaryMac p (hall p (by simp))
    rw [List.cons_append, hstep, hstep]
    exact ih _ _ (fun x hx => hall x (by simp [hx]))

/-- C3. On a source on which all lookups succeed, `getENIMetaMap` returns a nil error and a
map whose keys are exactly the lowercased MACs of the list returned by `EniMacs` (each key
once); when the lowercased forms are pairwise distinct, the record stored under the
lowercased form of each MAC `mac` of the list has `Mac` equal to that key, `PrimaryIp` the
result of `EniPrimaryIpv4(mac)`, `Mask` the result of `EniIpv4SubnetMask(mac, PrimaryIp)`,
`GateWay` the result of `EniIpv4GateWay(mac, PrimaryIp)` and `LocalIpList` the result of
`EniIpv4List(mac)`. -/
theorem discovery_map_complete (ToLower : String → String) (metaCli : MetaData)
    (macList : List String) (hMacs : metaCli.EniMacs = .ok macList)
    (hok : metaCli.AllSucceed) :
    (getENIMetaMap ToLower metaCli).err = none ∧
    (∀ k, k ∈ (getENIMetaMap ToLower metaCli).eniMetaMap.keys ↔ k ∈ macList.map ToLower) ∧
    (getENIMetaMap ToLower metaCli).eniMetaMap.keys.Nodup ∧
    ((macList.map ToLower).Nodup → ∀ mac ∈ macList, ∃ r,
      (getENIMetaMap ToLower metaCli).eniMetaMap.get (ToLower mac) = some r ∧
      r.Mac = ToLower mac ∧
      metaCli.EniPrimaryIpv4 mac = .ok r.PrimaryIp ∧
      metaCli.EniIpv4SubnetMask mac r.PrimaryIp = .ok r.Mask ∧
      metaCli.EniIpv4GateWay mac r.PrimaryIp = .ok r.GateWay ∧
      metaCli.EniIpv4List mac = .ok r.LocalIpList) := by
  obtain ⟨macList2, primaryMac, h1, h2, h3⟩ := allSucceed_parts metaCli hok
  have hEq : macList2 = macList := by rw [hMacs] at h1; cases h1; rfl
  subst hEq
  rw [getENIMetaMap_eq_loop ToLower metaCli macList2 primaryMac h1 h2]
  obtain ⟨i1, i2, i3, _, _, i6⟩ :=
    loop_success ToLower metaCli (ToLower primaryMac) macList2 [] [.EniMacs, .Mac] h3
  refine ⟨i1, ?_, i3 (by simp [ENIMap.keys]), ?_⟩
  · intro k
    rw [i2 k]
    simp [ENIMap.keys]
  · intro hnd mac hmac
    obtain ⟨r, hr, hrec⟩ := i6 hnd mac hmac
    exact ⟨r, hr, hrec.1, hrec.2.2⟩

theorem discovery_map_complete_witness :
    (exampleSource ["AA:BB", "CC:DD"] "aa:bb" []).EniMacs = .ok ["AA:BB", "CC:DD"] ∧
    (exampleSource ["AA:BB", "CC:DD"] "aa:bb" []).AllSucceed ∧
    (getENIMetaMap asciiToLower (exampleSource ["AA:BB", "CC:DD"] "aa:bb" [])).err = none ∧
    (getENIMetaMap asciiToLower
      (exampleSource ["AA:BB", "CC:DD"] "aa:bb" [])).eniMetaMap.keys.Nodup ∧
    ∃ r, (getENIMetaMap asciiToLower
        (exampleSource ["AA:BB", "CC:DD"] "aa:bb" [])).eniMetaMap.get (asciiToLower "CC:DD")
        = some r ∧
      r.Mac = asciiToLower "CC:DD" ∧
      (exampleSource ["AA:BB", "CC:DD"] "aa:bb" []).EniPrimaryIpv4 "CC:DD"
        = .ok r.PrimaryIp ∧
      (exampleSource ["AA:BB", "CC:DD"] "aa:bb" []).EniIpv4SubnetMask "CC:DD" r.PrimaryIp
        = .ok r.Mask ∧
      (exampleSource ["AA:BB", "CC:DD"] "aa:bb" []).EniIpv4GateWay "CC:DD" r.PrimaryIp
        = .ok r.GateWay ∧
      (exampleSource ["AA:BB", "CC:DD"] "aa:bb" []).EniIpv4List "CC:DD"
        = .ok r.LocalIpList :=
  ⟨rfl, by decide,
    (discovery_map_complete asciiToLower (exampleSource ["AA:BB", "CC:DD"] "aa:bb" [])
      ["AA:BB", "CC:DD"] rfl (by decide)).1,
    (discovery_map_complete asciiToLower (exampleSource ["AA:BB", "CC:DD"] "aa:bb" [])
      ["AA:BB", "CC:DD"] rfl (by decide)).2.2.1,
    (discovery_map_complete asciiToLower (exampleSource ["AA:BB", "CC:DD"] "aa:bb" [])
      ["AA:BB", "CC:DD"] rfl (by decide)).2.2.2 (by decide) "CC:DD" (by decide)⟩

/-- C2. On a source on which all lookups succeed, every record of the returned map has
`Primary = true` exactly when its key is the lowercased primary MAC reported by `Mac()`;
hence, when some MAC of the list has the same lowercased form as the primary MAC, exactly
one record of the map is primary. -/
theorem primary_flag_iff (ToLower : String → String) (metaCli : MetaData)
    (primaryMac : String) (hMac : metaCli.Mac = .ok primaryMac) (hok : metaCli.AllSucceed) :
    (∀ e ∈ (getENIMetaMap ToLower metaCli).eniMetaMap,
      (e.2.Primary = true ↔ e.1 = ToLower primaryMac)) ∧
    (∀ macList, metaCli.EniMacs = .ok macList →
      (∃ mac ∈ macList, ToLower mac = ToLower primaryMac) →
      ((getENIMetaMap ToLower metaCli).eniMetaMap.filter (fun e => e.2.Primary)).length
        = 1) := by
  obtain ⟨macList2, primaryMac2, h1, h2, h3⟩ := allSucceed_parts metaCli hok
  have hEq : primaryMac2 = primaryMac := by rw [hMac] at h2; cases h2; rfl
  subst hEq
  rw [getENIMetaMap_eq_loop ToLower metaCli macList2 primaryMac2 h1 h2]
  obtain ⟨_, i2, i3, i4, _, _⟩ :=
    loop_success ToLower metaCli (ToLower primaryMac2) macList2 [] [.EniMacs, .Mac] h3
  have hflag : ∀ e ∈ (getENIMetaMapLoop ToLower metaCli (ToLower primaryMac2) macList2 []
      [.EniMacs, .Mac]).eniMetaMap, (e.2.Primary = true ↔ e.1 = ToLower primaryMac2) := by
    intro e he
    rcases i4 e he with h | ⟨mac, _, hk, hrec⟩
    · simp at h
    · rw [hrec.2.1, hk]
      simp
  refine ⟨hflag, ?_⟩
  intro macList hMacs ⟨mac, hmac, hlow⟩
  have hEq : macList2 = macList := by rw [hMacs] at h1; cases h1; rfl
  subst hEq
  apply filter_primary_length _ (ToLower primaryMac2) (i3 (by simp [ENIMap.keys])) _ hflag
  rw [i2]
  exact Or.inr (List.mem_map.2 ⟨mac, hmac, hlow⟩)

theorem primary_flag_iff_witness :
    (exampleSource ["AA:BB", "CC:DD"] "aa:bb" []).Mac = .ok "aa:bb" ∧
    (exampleSource ["AA:BB", "CC:DD"] "aa:bb" []).AllSucceed ∧
    ((getENIMetaMap asciiToLower
        (exampleSource ["AA:BB", "CC:DD"] "aa:bb" [])).eniMetaMap.get "aa:bb").map
      (fun r => r.Primary) = some true ∧
    ((getENIMetaMap asciiToLower
        (exampleSource ["AA:BB", "CC:DD"] "aa:bb" [])).eniMetaMap.get "cc:dd").map
      (fun r => r.Primary) = some false ∧
    ((getENIMetaMap asciiToLower
        (exampleSource ["AA:BB", "CC:DD"] "aa:bb" [])).eniMetaMap.filter
      (fun e => e.2.Primary)).length = 1 :=
  ⟨rfl, by decide, by decide, by decide,
    (primary_flag_iff asciiToLower (exampleSource ["AA:BB", "CC:DD"] "aa:bb" []) "aa:bb" rfl
      (by decide)).2 ["AA:BB", "CC:DD"] rfl ⟨"AA:BB", by decide, by decide⟩⟩

/-- C1, as stated, fails: on the source reporting the MACs "AA:BB" and "CC:DD" whose gateway
lookup fails for "CC:DD", `getENIMetaMap` returns a non-nil error together with a map that
still holds the record of "aa:bb", processed before the failure. -/
theorem processed_records_returned_on_failure :
    (exampleSource ["AA:BB", "CC:DD"] "aa:bb" ["CC:DD"]).SomeFails ∧
    (getENIMetaMap asciiToLower (exampleSource ["AA:BB", "CC:DD"] "aa:bb" ["CC:DD"])).err
      = some (.other "no gateway for CC:DD") ∧
    (getENIMetaMap asciiToLower
      (exampleSource ["AA:BB", "CC:DD"] "aa:bb" ["CC:DD"])).eniMetaMap
      = [("aa:bb", ⟨"aa:bb", true, "ip-AA:BB", "255.255.255.0", "gw-ip-AA:BB", ["ip-AA:BB"]⟩)] ∧
    (getENIMetaMap asciiToLower
      (exampleSource ["AA:BB", "CC:DD"] "aa:bb" ["CC:DD"])).eniMetaMap ≠ [] := by
  decide

/-- C1, amended. On a source on which some lookup of the call order fails, `getENIMetaMap`
returns a non-nil error; the map it returns is empty when `EniMacs` or `Mac` fails, and
otherwise is the map built from the MACs processed before the first MAC with a failing
lookup: it equals the map that discovery returns, without error, on the same source
restricted to that part of the MAC list. -/
theorem failure_keeps_processed_records (ToLower : String → String) (metaCli : MetaData)
    (h : metaCli.SomeFails) :
    (getENIMetaMap ToLower metaCli).err ≠ none ∧
    ((metaCli.failure .EniMacs ≠ none ∨ metaCli.failure .Mac ≠ none) →
      (getENIMetaMap ToLower metaCli).eniMetaMap = []) ∧
    (∀ macList, metaCli.EniMacs = .ok macList → metaCli.failure .Mac = none →
      ∃ pre mac post, macList = pre ++ mac :: post ∧ (∀ x ∈ pre, metaCli.macOK x) ∧
        ¬ metaCli.macOK mac ∧
        (getENIMetaMap ToLower (metaCli.withMacs pre)).err = none ∧
        (getENIMetaMap ToLower metaCli).eniMetaMap
          = (getENIMetaMap ToLower (metaCli.withMacs pre)).eniMetaMap) := by
  refine ⟨?_, ?_, ?_⟩
  · obtain ⟨_, _, _, e, _, _, _, hff, _⟩ := exists_first_failure metaCli metaCli.callOrder h
    rw [(getENIMetaMap_trace ToLower metaCli).2, hff]
    simp
  · intro hfail
    rcases e1 : metaCli.EniMacs with e | macList
    · simp [getENIMetaMap, e1]
    · rcases e2 : metaCli.Mac with e | primaryMac
      · simp [getENIMetaMap, e1, e2]
      · simp [MetaData.failure, e1, e2] at hfail
  · intro macList e1 hMac
    obtain ⟨primaryMac, e2⟩ : ∃ primaryMac, metaCli.Mac = .ok primaryMac := by
      rcases e2 : metaCli.Mac with e | primaryMac
      · simp [MetaData.failure, e2] at hMac
      · exact ⟨primaryMac, rfl⟩
    have hbad : ∃ x ∈ macList, ¬ metaCli.macOK x := by
      obtain ⟨l, hl, hf⟩ := h
      simp only [MetaData.callOrder, e1, List.mem_append, List.mem_cons,
        List.mem_flatMap, List.not_mem_nil, or_false] at hl
      rcases hl with (rfl | rfl) | ⟨x, hx, hlx⟩
      · simp [MetaData.failure, e1] at hf
      · exact absurd hMac hf
      · exact ⟨x, hx, fun hok => hf (hok l hlx)⟩
    obtain ⟨pre, mac, post, hL, hpre, hmac⟩ := exists_first_bad metaCli.macOK macList hbad
    refine ⟨pre, mac, post, hL, hpre, hmac, ?_, ?_⟩
    · rw [getENIMetaMap_eq_loop ToLower (metaCli.withMacs pre) pre primaryMac rfl e2,
        loop_withMacs]
      exact (loop_success ToLower metaCli (ToLower primaryMac) pre [] _ hpre).1
    · rw [getENIMetaMap_eq_loop ToLower (metaCli.withMacs pre) pre primaryMac rfl e2,
        loop_withMacs, getENIMetaMap_eq_loop ToLower metaCli macList primaryMac e1 e2, hL]
      exact loop_stops_at_failure ToLower metaCli (ToLower primaryMac) mac post hmac pre [] _ hpre

theorem failure_keeps_processed_records_witness :
    (exampleSource ["AA:BB", "CC:DD"] "aa:bb" ["CC:DD"]).SomeFails ∧
    (getENIMetaMap asciiToLower (exampleSource ["AA:BB", "CC:DD"] "aa:bb" ["CC:DD"])).err
      ≠ none ∧
    ∃ pre mac post, ["AA:BB", "CC:DD"] = pre ++ mac :: post ∧
      (∀ x ∈ pre, (exampleSource ["AA:BB", "CC:DD"] "aa:bb" ["CC:DD"]).macOK x) ∧
      ¬ (exampleSource ["AA:BB", "CC:DD"] "aa:bb" ["CC:DD"]).macOK mac ∧
      (getENIMetaMap asciiToLower
        ((exampleSource ["AA:BB", "CC:DD"] "aa:bb" ["CC:DD"]).withMacs pre)).err = none ∧
      (getENIMetaMap asciiToLower
        (exampleSource ["AA:BB", "CC:DD"] "aa:bb" ["CC:DD"])).eniMetaMap
        = (getENIMetaMap asciiToLower
          ((exampleSource ["AA:BB", "CC:DD"] "aa:bb" ["CC:DD"]).withMacs pre)).eniMetaMap :=
  ⟨by decide,
    (failure_keeps_processed_records asciiToLower
      (exampleSource ["AA:BB", "CC:DD"] "aa:bb" ["CC:DD"]) (by decide)).1,
    (failure_keeps_processed_records asciiToLower
      (exampleSource ["AA:BB", "CC:DD"] "aa:bb" ["CC:DD"]) (by decide)).2.2
        ["AA:BB", "CC:DD"] rfl rfl⟩

/-! ## Results on the error classifiers -/

/-- C8. For every error value (nil included), `IsNotExistsError` is true exactly when the
error is the `syscall.Errno` `ESRCH`, `IsFileExistsError` is true exactly when it is the
`syscall.Errno` `EEXIST`; both are false for the nil error, and they are never both true. -/
theorem classifiers_characterised (err : error) :
    (IsNotExistsError err = true ↔ err = some (.errno ESRCH)) ∧
    (IsFileExistsError err = true ↔ err = some (.errno EEXIST)) ∧
    IsNotExistsError none = false ∧ IsFileExistsError none = false ∧
    ¬ (IsNotExistsError err = true ∧ IsFileExistsError err = true) := by
  rcases err with _ | e
  · simp [IsNotExistsError, IsFileExistsError]
  · cases e with
    | errno code =>
      simp only [IsNotExistsError, IsFileExistsError, ESRCH, EEXIST, beq_iff_eq,
        Option.some.injEq, GoError.errno.injEq, true_and, and_true]
      omega
    | numError fn num kind => simp [IsNotExistsError, IsFileExistsError]
    | other text => simp [IsNotExistsError, IsFileExistsError]

end eni

namespace cloudprovider

/-! ## Results on `AssignIP` and `UnAssignIP` -/

/-- The three formatted arguments occur in the text built by `fmt.Errorf`. -/
theorem errorf_text_contains (op a b c : String) :
    a.data <:+: (op ++ a ++ " failed: reply " ++ b ++ ", err " ++ c).data ∧
    b.data <:+: (op ++ a ++ " failed: reply " ++ b ++ ", err " ++ c).data ∧
    c.data <:+: (op ++ a ++ " failed: reply " ++ b ++ ", err " ++ c).data := by
  simp only [String.data_append]
  refine ⟨⟨op.data, " failed: reply ".data ++ b.data ++ ", err ".data ++ c.data, ?_⟩,
    ⟨op.data ++ a.data ++ " failed: reply ".data, ", err ".data ++ c.data, ?_⟩,
    ⟨op.data ++ a.data ++ " failed: reply ".data ++ b.data ++ ", err ".data, [], ?_⟩⟩ <;>
  simp [List.append_assoc]

/-- C6. Once the provider is connected, `AssignIP` and `UnAssignIP` return to the caller
exactly the reply of the remote call, and a nil error exactly when the remote error is nil,
the reply is non-nil and its `Success` flag is true. -/
theorem assign_unassign_results (env : Env) (s : Process) (c : IPProviderServiceClient)
    (hlive : (connect env s).exited = false) (hc : (connect env s).p.client = some c) :
    (∀ req, ∃ s1 err, AssignIP env s req = (s1, some ((env.AssignIP c req).1, err)) ∧
      (err = none ↔ (env.AssignIP c req).2 = none ∧
        ∃ r, (env.AssignIP c req).1 = some r ∧ r.Success = true)) ∧
    (∀ req, ∃ s1 err, UnAssignIP env s req = (s1, some ((env.UnAssignIP c req).1, err)) ∧
      (err = none ↔ (env.UnAssignIP c req).2 = none ∧
        ∃ r, (env.UnAssignIP c req).1 = some r ∧ r.Success = true)) := by
  constructor
  · intro req
    rcases hout : env.AssignIP c req with ⟨reply, err⟩
    unfold cloudprovider.AssignIP
    simp only [hlive, hc, hout]
    rcases err with _ | e
    · rcases reply with _ | r
      · simp
        exact ⟨_, _, ⟨rfl, rfl⟩, by simp⟩
      · cases hS : r.Success
        · simp [hS]
          exact ⟨_, _, ⟨rfl, rfl⟩, by simp⟩
        · simp [hS]
    · simp
      exact ⟨_, _, ⟨rfl, rfl⟩, by simp⟩
  · intro req
    rcases hout : env.UnAssignIP c req with ⟨reply, err⟩
    unfold cloudprovider.UnAssignIP
    simp only [hlive, hc, hout]
    rcases err with _ | e
    · rcases reply with _ | r
      · simp
        exact ⟨_, _, ⟨rfl, rfl⟩, by simp⟩
      · cases hS : r.Success
        · simp [hS]
          exact ⟨_, _, ⟨rfl, rfl⟩, by simp⟩
        · simp [hS]
    · simp
      exact ⟨_, _, ⟨rfl, rfl⟩, by simp⟩

theorem assign_unassign_results_witness :
    (connect exampleEnv (Process.start "a:1")).exited = false ∧
    (connect exampleEnv (Process.start "a:1")).p.client = some 8 ∧
    ∃ s1 err, AssignIP exampleEnv (Process.start "a:1") (some ⟨"x"⟩)
        = (s1, some ((exampleEnv.AssignIP 8 (some ⟨"x"⟩)).1, err)) ∧
      (err = none ↔ (exampleEnv.AssignIP 8 (some ⟨"x"⟩)).2 = none ∧
        ∃ r, (exampleEnv.AssignIP 8 (some ⟨"x"⟩)).1 = some r ∧ r.Success = true) :=
  ⟨by decide, by decide,
    (assign_unassign_results exampleEnv (Process.start "a:1") 8 (by decide) (by decide)).1
      (some ⟨"x"⟩)⟩

/-- C7. Once the provider is connected, whenever the remote call returns an error, a nil
reply or a reply whose `Success` flag is false, `AssignIP` (and likewise `UnAssignIP`)
returns a non-nil error whose text is "<Op> for <request> failed: reply <reply>, err <cause>"
and so contains the representations of the request, of the reply and of the cause. -/
theorem assign_unassign_error_text (env : Env) (s : Process) (c : IPProviderServiceClient)
    (hlive : (connect env s).exited = false) (hc : (connect env s).p.client = some c) :
    (∀ req, ((env.AssignIP c req).2 ≠ none ∨ (env.AssignIP c req).1 = none ∨
        ∃ r, (env.AssignIP c req).1 = some r ∧ r.Success = false) →
      ∃ s1 text, AssignIP env s req
          = (s1, some ((env.AssignIP c req).1, some (.errorf text))) ∧
        text = "AssignIP for " ++ env.fmtAssignIPRequest req ++ " failed: reply " ++
          env.fmtAssignIPReply (env.AssignIP c req).1 ++ ", err " ++
          fmtError (env.AssignIP c req).2 ∧
        (env.fmtAssignIPRequest req).data <:+: text.data ∧
        (env.fmtAssignIPReply (env.AssignIP c req).1).data <:+: text.data ∧
        (fmtError (env.AssignIP c req).2).data <:+: text.data) ∧
    (∀ req, ((env.UnAssignIP c req).2 ≠ none ∨ (env.UnAssignIP c req).1 = none ∨
        ∃ r, (env.UnAssignIP c req).1 = some r ∧ r.Success = false) →
      ∃ s1 text, UnAssignIP env s req
          = (s1, some ((env.UnAssignIP c req).1, some (.errorf text))) ∧
        text = "UnAssignIP for " ++ env.fmtUnAssignIPRequest req ++ " failed: reply " ++
          env.fmtUnAssignIPReply (env.UnAssignIP c req).1 ++ ", err " ++
          fmtError (env.UnAssignIP c req).2 ∧
        (env.fmtUnAssignIPRequest req).data <:+: text.data ∧
        (env.fmtUnAssignIPReply (env.UnAssignIP c req).1).data <:+: text.data ∧
        (fmtError (env.UnAssignIP c req).2).data <:+: text.data) := by
  constructor
  · have hcond : ∀ (reply : Option AssignIPReply) (err : callError),
        (err ≠ none ∨ reply = none ∨ ∃ r, reply = some r ∧ r.Success = false) →
        (decide (err ≠ none) ||
          match reply with | none => true | some r => !r.Success) = true := by
      intro reply err hfail
      rcases hfail with h | h | ⟨r, h, hS⟩
      · simp [h]
      · simp [h]
      · simp [h, hS]
    intro req hfail
    rcases hout : env.AssignIP c req with ⟨reply, err⟩
    rw [hout] at hfail
    unfold cloudprovider.AssignIP
    simp only [hlive, hc, hout]
    rw [if_neg (by simp), if_pos (hcond reply err hfail)]
    exact ⟨_, _, rfl, rfl, errorf_text_contains _ _ _ _⟩
  · have hcond : ∀ (reply : Option UnAssignIPReply) (err : callError),
        (err ≠ none ∨ reply = none ∨ ∃ r, reply = some r ∧ r.Success = false) →
        (decide (err ≠ none) ||
          match reply with | none => true | some r => !r.Success) = true := by
      intro reply err hfail
      rcases hfail with h | h | ⟨r, h, hS⟩
      · simp [h]
      · simp [h]
      · simp [h, hS]
    intro req hfail
    rcases hout : env.UnAssignIP c req with ⟨reply, err⟩
    rw [hout] at hfail
    unfold cloudprovider.UnAssignIP
    simp only [hlive, hc, hout]
    rw [if_neg (by simp), if_pos (hcond reply err hfail)]
    exact ⟨_, _, rfl, rfl, errorf_text_contains _ _ _ _⟩

theorem assign_unassign_error_text_witness :
    (connect exampleEnv (Process.start "a:1")).exited = false ∧
    (connect exampleEnv (Process.start "a:1")).p.client = some 8 ∧
    ((exampleEnv.AssignIP 8 (some ⟨"bad"⟩)).2 ≠ none ∨
      (exampleEnv.AssignIP 8 (some ⟨"bad"⟩)).1 = none ∨
      ∃ r, (exampleEnv.AssignIP 8 (some ⟨"bad"⟩)).1 = some r ∧ r.Success = false) ∧
    ∃ s1 text, AssignIP exampleEnv (Process.start "a:1") (some ⟨"bad"⟩)
        = (s1, some ((exampleEnv.AssignIP 8 (some ⟨"bad"⟩)).1, some (.errorf text))) ∧
      text = "AssignIP for " ++ exampleEnv.fmtAssignIPRequest (some ⟨"bad"⟩) ++
        " failed: reply " ++
        exampleEnv.fmtAssignIPReply (exampleEnv.AssignIP 8 (some ⟨"bad"⟩)).1 ++ ", err " ++
        fmtError (exampleEnv.AssignIP 8 (some ⟨"bad"⟩)).2 ∧
      (exampleEnv.fmtAssignIPRequest (some ⟨"bad"⟩)).data <:+: text.data ∧
      (exampleEnv.fmtAssignIPReply (exampleEnv.AssignIP 8 (some ⟨"bad"⟩)).1).data
        <:+: text.data ∧
      (fmtError (exampleEnv.AssignIP 8 (some ⟨"bad"⟩)).2).data <:+: text.data :=
  ⟨by decide, by decide, Or.inr (Or.inr ⟨⟨false, "refused"⟩, by decide, rfl⟩),
    (assign_unassign_error_text exampleEnv (Process.start "a:1") 8 (by decide)
      (by decide)).1 (some ⟨"bad"⟩) (Or.inr (Or.inr ⟨⟨false, "refused"⟩, by decide, rfl⟩))⟩

/-! ## Results on `connect` -/

theorem connect_of_connected (env : Env) (s : Process) (c : IPProviderServiceClient)
    (h : Connected s c) : connect env s = s := by
  obtain ⟨h1, _, _, _⟩ := h
  simp [connect, h1]

theorem invoke_of_connected (env : Env) (s : Process) (c : IPProviderServiceClient)
    (h : Connected s c) (i : Invocation) :
    invoke env s i = { s with calls := s.calls ++ [c] } := by
  have hcon := connect_of_connected env s c h
  obtain ⟨_, h2, h3, _⟩ := h
  cases i with
  | AssignIP req =>
    rcases hout : env.AssignIP c req with ⟨reply, err⟩
    unfold invoke cloudprovider.AssignIP
    simp only [hcon, h2, h3, hout]
    rw [if_neg (by simp)]
    split <;> rfl
  | UnAssignIP req =>
    rcases hout : env.UnAssignIP c req with ⟨reply, err⟩
    unfold invoke cloudprovider.UnAssignIP
    simp only [hcon, h2, h3, hout]
    rw [if_neg (by simp)]
    split <;> rfl

theorem run_of_connected (env : Env) (c : IPProviderServiceClient) (is : List Invocation) :
    ∀ s : Process, Connected s c →
      run env s is = { s with calls := s.calls ++ List.replicate is.length c } := by
  induction is with
  | nil => intro s _; simp [run]
  | cons i is ih =>
    intro s h
    have hs : Connected { s with calls := s.calls ++ [c] } c := h
    obtain ⟨_, _, h3, h4⟩ := h
    simp only [run, h3, h4, Bool.or_self, Bool.false_eq_true, if_false]
    rw [invoke_of_connected env s c ⟨‹_›, ‹_›, h3, h4⟩, ih _ hs]
    simp [List.replicate_succ, List.append_assoc, h3, h4]

theorem run_of_exited (env : Env) (is : List Invocation) (s : Process)
    (h : s.exited = true) : run env s is = s := by
  cases is with
  | nil => rfl
  | cons i is => simp [run, h]

theorem connect_start_ok (env : Env) (addr : String) (conn : ClientConn)
    (h : env.Dial addr = .ok conn) :
    connect env (Process.start addr)
      = { p := { init := true, cloudProviderAddr := addr,
                 client := some (env.NewIPProviderServiceClient conn),
                 timeout := 60 * 1000000000 },
          dials := 1, calls := [], exited := false, panicked := false } := by
  simp [connect, Process.start, NewGRPCCloudProvider, h]

theorem connect_start_error (env : Env) (addr : String) (e : CallError)
    (h : env.Dial addr = .error e) :
    connect env (Process.start addr)
      = { Process.start addr with dials := 1, exited := true } := by
  simp [connect, Process.start, NewGRPCCloudProvider, h]

theorem invoke_start_ok (env : Env) (addr : String) (conn : ClientConn)
    (h : env.Dial addr = .ok conn) (i : Invocation) :
    invoke env (Process.start addr) i
      = { p := { init := true, cloudProviderAddr := addr,
                 client := some (env.NewIPProviderServiceClient conn),
                 timeout := 60 * 1000000000 },
          dials := 1, calls := [env.NewIPProviderServiceClient conn], exited := false,
          panicked := false } := by
  have hcon := connect_start_ok env addr conn h
  cases i with
  | AssignIP req =>
    rcases hout : env.AssignIP (env.NewIPProviderServiceClient conn) req with ⟨reply, err⟩
    unfold invoke cloudprovider.AssignIP
    simp only [hcon, hout]
    rw [if_neg (by simp)]
    split <;> rfl
  | UnAssignIP req =>
    rcases hout : env.UnAssignIP (env.NewIPProviderServiceClient conn) req with ⟨reply, err⟩
    unfold invoke cloudprovider.UnAssignIP
    simp only [hcon, hout]
    rw [if_neg (by simp)]
    split <;> rfl

theorem invoke_start_error (env : Env) (addr : String) (e : CallError)
    (h : env.Dial addr = .error e) (i : Invocation) :
    invoke env (Process.start addr) i
      = { Process.start addr with dials := 1, exited := true } := by
  have hcon := connect_start_error env addr e h
  cases i with
  | AssignIP req =>
    unfold invoke cloudprovider.AssignIP
    simp only [hcon]
    rfl
  | UnAssignIP req =>
    unfold invoke cloudprovider.UnAssignIP
    simp only [hcon]
    rfl

theorem run_start (env : Env) (addr : String) (i : Invocation) (is : List Invocation) :
    (run env (Process.start addr) (i :: is)).dials = 1 ∧
    ∀ conn, env.Dial addr = .ok conn →
      (run env (Process.start addr) (i :: is)).calls
        = List.replicate (i :: is).length (env.NewIPProviderServiceClient conn) ∧
      (run env (Process.start addr) (i :: is)).p.client
        = some (env.NewIPProviderServiceClient conn) := by
  have hrun : run env (Process.start addr) (i :: is)
      = run env (invoke env (Process.start addr) i) is := by
    simp [run, Process.start]
  rw [hrun]
  rcases hd : env.Dial addr with e | conn
  · rw [invoke_start_error env addr e hd, run_of_exited env is _ rfl]
    exact ⟨rfl, fun conn h => by cases h⟩
  · rw [invoke_start_ok env addr conn hd,
      run_of_connected env (env.NewIPProviderServiceClient conn) is _ ⟨rfl, rfl, rfl, rfl⟩]
    refine ⟨rfl, fun conn2 h => ?_⟩
    cases h
    exact ⟨by simp [List.replicate_succ], rfl⟩

/-- C9. For a provider created by `NewGRPCCloudProvider` and every sequence of `N ≥ 1`
invocations of `AssignIP` and `UnAssignIP` in any order, the function inside `connect` has
run exactly once afterwards: not at construction, on the first invocation, and never again;
when dialing succeeds, every invocation issues its remote call through the one client
handle bound by that execution. -/
theorem connect_body_runs_once (env : Env) (addr : String) (is : List Invocation)
    (hN : 1 ≤ is.length) :
    (Process.start addr).dials = 0 ∧
    (run env (Process.start addr) (is.take 1)).dials = 1 ∧
    (run env (Process.start addr) is).dials = 1 ∧
    ∀ conn, env.Dial addr = .ok conn →
      (run env (Process.start addr) is).calls
        = List.replicate is.length (env.NewIPProviderServiceClient conn) ∧
      (run env (Process.start addr) is).p.client
        = some (env.NewIPProviderServiceClient conn) := by
  obtain ⟨i, rest, his⟩ : ∃ i rest, is = i :: rest := by
    cases is with
    | nil => simp at hN
    | cons i rest => exact ⟨i, rest, rfl⟩
  subst his
  refine ⟨rfl, ?_, (run_start env addr i rest).1, (run_start env addr i rest).2⟩
  simpa using (run_start env addr i []).1

theorem connect_body_runs_once_witness :
    1 ≤ [Invocation.AssignIP (some ⟨"x"⟩), .UnAssignIP none, .AssignIP (some ⟨"bad"⟩)].length ∧
    (run exampleEnv (Process.start "a:1")
      [.AssignIP (some ⟨"x"⟩), .UnAssignIP none, .AssignIP (some ⟨"bad"⟩)]).dials = 1 ∧
    (run exampleEnv (Process.start "a:1")
      [.AssignIP (some ⟨"x"⟩), .UnAssignIP none, .AssignIP (some ⟨"bad"⟩)]).calls = [8, 8, 8] :=
  ⟨by decide,
    (connect_body_runs_once exampleEnv "a:1"
      [.AssignIP (some ⟨"x"⟩), .UnAssignIP none, .AssignIP (some ⟨"bad"⟩)] (by decide)).2.2.1,
    ((connect_body_runs_once exampleEnv "a:1"
      [.AssignIP (some ⟨"x"⟩), .UnAssignIP none, .AssignIP (some ⟨"bad"⟩)] (by decide)).2.2.2
        7 rfl).1⟩

end cloudprovider
